import Mathlib

/-!
Verification development for the Quant-Sol backtesting engine.

Shallow embedding conventions:

* `f64` values are modelled as `ℚ` (the claims under study concern the exact
  structure of the arithmetic, not rounding); `f64::sqrt` is threaded through
  as an explicit function parameter `sqrtFn : ℚ → ℚ`.
* `chrono::DateTime<Utc>` timestamps are modelled as `Int`; the wall clock
  (`Utc::now()`) becomes an explicit `now : Int` argument wherever the source
  reads it.
* `HashMap<String, Option<Trade>>` is modelled as an association list with
  replace-on-insert semantics; iteration order of the Rust map is
  unspecified, and every quantity the engine derives from iterating it is a
  commutative sum, so a fixed list order is an admissible refinement.
* The concrete signal producers (`strategies/rsi.rs`,
  `strategies/bollinger_bands.rs`) are external to the analysed core
  (spec §1, §6): only their per-tick `Buy/Sell/Hold` classification enters the
  engine, so producer outputs are taken as inputs of the run, one pair of
  signals per tick.
-/

namespace QuantSol

/-- Source `MarketData` (src/data/ingestion.rs): one timestamped price observation. -/
structure MarketData where
  timestamp : Int
  symbol : String
  price : ℚ
  volume : ℚ
  high : ℚ
  low : ℚ
deriving DecidableEq, Repr

/-- Source `ProcessedMarketData` (src/data/processing.rs): raw tick plus optional
derived indicators. -/
structure ProcessedMarketData where
  raw_data : MarketData
  moving_average_5 : Option ℚ
  moving_average_20 : Option ℚ
  rsi_14 : Option ℚ
  volatility : Option ℚ
  is_outlier : Bool
deriving DecidableEq, Repr

/-- Source `PositionType` (src/backtesting/backtester.rs lines 30-34). -/
inductive PositionType where
  | Long
  | Short
deriving DecidableEq, Repr

/-- Source `StrategyMode` (backtester.rs lines 72-77). -/
inductive StrategyMode where
  | Rsi
  | BollingerBands
  | Combined
deriving DecidableEq, Repr

/-- Source `TradeSignal` (backtester.rs lines 88-95).  The `Long`/`Short` variants
exist in the source but are never produced by the decision logic. -/
inductive TradeSignal where
  | Buy
  | Sell
  | Hold
  | Long
  | Short
deriving DecidableEq, Repr

/-- Source `SignalType` of the RSI producer (re-exported as `RsiSignalType`). -/
inductive RsiSignalType where
  | Buy
  | Sell
  | Hold
deriving DecidableEq, Repr

/-- Source `SignalType` of the Bollinger producer (re-exported as
`BollingerSignalType`). -/
inductive BollingerSignalType where
  | Buy
  | Sell
  | Hold
deriving DecidableEq, Repr

/-- The engine reads exactly one field of an `RsiSignal`: its
classification (spec §6 producer contract). -/
structure RsiSignal where
  signal_type : RsiSignalType
deriving DecidableEq, Repr

/-- The engine reads exactly one field of a `BollingerSignal`: its
classification (spec §6 producer contract). -/
structure BollingerSignal where
  signal_type : BollingerSignalType
deriving DecidableEq, Repr

/-- Source `Trade` (backtester.rs lines 13-23). -/
structure Trade where
  entry_time : Int
  exit_time : Option Int
  entry_price : ℚ
  exit_price : Option ℚ
  position_type : PositionType
  quantity : ℚ
  pnl : Option ℚ
  strategy_name : String
deriving DecidableEq, Repr

/-- Source `EquityPoint` (backtester.rs lines 101-106). -/
structure EquityPoint where
  timestamp : Int
  equity : ℚ
  drawdown : ℚ
deriving DecidableEq, Repr

/-- Source `BacktestResult` (backtester.rs lines 50-64).  The source field
`sharpe_ratio` is called `sharpe` here. -/
structure BacktestResult where
  total_trades : Nat
  winning_trades : Nat
  losing_trades : Nat
  total_pnl : ℚ
  win_rate : ℚ
  average_win : ℚ
  average_loss : ℚ
  largest_win : ℚ
  largest_loss : ℚ
  max_drawdown : ℚ
  sharpe : ℚ
  trades : List Trade
deriving DecidableEq, Repr

/-- Source `Backtester` (backtester.rs lines 118-126). -/
structure Backtester where
  initial_capital : ℚ
  position_size : ℚ
  commission_rate : ℚ
  strategy_mode : StrategyMode
  trades : List Trade
  current_position : List (String × Option Trade)
  equity_curve : List EquityPoint
deriving DecidableEq, Repr

/-- Debug formatting of a `StrategyMode`, as produced by the source's
format macro when naming the strategy of a trade. -/
def StrategyMode.debugFmt : StrategyMode → String
  | .Rsi => "Rsi"
  | .BollingerBands => "BollingerBands"
  | .Combined => "Combined"

/-- Source `HashMap::insert`: replace the value at an existing key, otherwise add
the binding. -/
def hmInsert (m : List (String × Option Trade)) (k : String) (v : Option Trade) :
    List (String × Option Trade) :=
  (k, v) :: m.filter (fun p => p.1 ≠ k)

/-- Source `Backtester::new` (backtester.rs lines 140-154).  The constructor performs
no validation of its arguments; `Utc::now()` is the explicit `now`. -/
def Backtester.new (initial_capital position_size commission_rate : ℚ)
    (now : Int) : Backtester :=
  { initial_capital := initial_capital
    position_size := position_size
    commission_rate := commission_rate
    strategy_mode := .Combined
    trades := []
    current_position := []
    equity_curve := [{ timestamp := now, equity := initial_capital, drawdown := 0 }] }

/-- Source `Backtester::set_strategy_mode` (backtester.rs lines 163-165). -/
def Backtester.set_strategy_mode (bt : Backtester) (mode : StrategyMode) : Backtester :=
  { bt with strategy_mode := mode }

/-- Source `Backtester::calculate_commission` (backtester.rs lines 174-176). -/
def Backtester.calculate_commission (bt : Backtester) (trade_value : ℚ) : ℚ :=
  trade_value * bt.commission_rate

/-- Source `Backtester::signals_agree` (backtester.rs lines 277-292). -/
def Backtester.signals_agree (rsi_signal : RsiSignal) (bollinger_signal : BollingerSignal) :
    Bool :=
  match rsi_signal.signal_type, bollinger_signal.signal_type with
  | .Buy, .Buy => true
  | .Sell, .Sell => true
  | .Buy, .Hold => true
  | .Hold, .Buy => true
  | .Sell, .Hold => true
  | .Hold, .Sell => true
  | _, _ => false

/-- Source `Backtester::convert_rsi_to_trade_signal` (backtester.rs lines 300-306). -/
def Backtester.convert_rsi_to_trade_signal (signal : RsiSignal) : TradeSignal :=
  match signal.signal_type with
  | .Buy => .Buy
  | .Sell => .Sell
  | .Hold => .Hold

/-- Source `Backtester::convert_bollinger_to_trade_signal` (backtester.rs lines
314-320). -/
def Backtester.convert_bollinger_to_trade_signal (signal : BollingerSignal) : TradeSignal :=
  match signal.signal_type with
  | .Buy => .Buy
  | .Sell => .Sell
  | .Hold => .Hold

/-- The per-tick decision logic inlined in `run_backtest` (backtester.rs lines
214-254): `none` plays the role of `should_trade == false` or
`trade_signal == None`, in which case `execute_trade` is not called. -/
def Backtester.resolveSignal (mode : StrategyMode) (rsi_signal : RsiSignal)
    (bollinger_signal : BollingerSignal) : Option TradeSignal :=
  match mode with
  | .Rsi => some (Backtester.convert_rsi_to_trade_signal rsi_signal)
  | .BollingerBands => some (Backtester.convert_bollinger_to_trade_signal bollinger_signal)
  | .Combined =>
    if Backtester.signals_agree rsi_signal bollinger_signal then
      match rsi_signal.signal_type, bollinger_signal.signal_type with
      | _, .Buy => some (Backtester.convert_bollinger_to_trade_signal bollinger_signal)
      | _, .Sell => some (Backtester.convert_bollinger_to_trade_signal bollinger_signal)
      | _, _ => some (Backtester.convert_rsi_to_trade_signal rsi_signal)
    else
      none

/-- Source `Backtester::execute_trade` (backtester.rs lines 330-430). -/
def Backtester.execute_trade (bt : Backtester) (market_data : ProcessedMarketData)
    (signal : TradeSignal) : Backtester :=
  let symbol := market_data.raw_data.symbol
  let current_price := market_data.raw_data.price
  let trade_quantity := bt.position_size / current_price
  let commission := bt.calculate_commission bt.position_size
  match signal, bt.current_position.lookup symbol with
  | .Buy, none =>
    let trade : Trade :=
      { entry_time := market_data.raw_data.timestamp
        exit_time := none
        entry_price := current_price
        exit_price := none
        position_type := .Long
        quantity := trade_quantity
        pnl := none
        strategy_name := bt.strategy_mode.debugFmt }
    { bt with current_position := hmInsert bt.current_position symbol (some trade) }
  | .Sell, none =>
    let trade : Trade :=
      { entry_time := market_data.raw_data.timestamp
        exit_time := none
        entry_price := current_price
        exit_price := none
        position_type := .Short
        quantity := trade_quantity
        pnl := none
        strategy_name := bt.strategy_mode.debugFmt }
    { bt with current_position := hmInsert bt.current_position symbol (some trade) }
  | .Sell, some (some trade) =>
    if trade.position_type = .Long then
      let entry_value := trade.entry_price * trade.quantity
      let exit_value := current_price * trade.quantity
      let closed_trade : Trade :=
        { trade with
            exit_time := some market_data.raw_data.timestamp
            exit_price := some current_price
            pnl := some (exit_value - entry_value - commission) }
      let new_trade : Trade :=
        { entry_time := market_data.raw_data.timestamp
          exit_time := none
          entry_price := current_price
          exit_price := none
          position_type := .Short
          quantity := trade_quantity
          pnl := none
          strategy_name := bt.strategy_mode.debugFmt }
      { bt with
          trades := bt.trades ++ [closed_trade]
          current_position := hmInsert bt.current_position symbol (some new_trade) }
    else
      bt
  | .Buy, some (some trade) =>
    if trade.position_type = .Short then
      let entry_value := trade.entry_price * trade.quantity
      let exit_value := current_price * trade.quantity
      let closed_trade : Trade :=
        { trade with
            exit_time := some market_data.raw_data.timestamp
            exit_price := some current_price
            pnl := some (entry_value - exit_value - commission) }
      let new_trade : Trade :=
        { entry_time := market_data.raw_data.timestamp
          exit_time := none
          entry_price := current_price
          exit_price := none
          position_type := .Long
          quantity := trade_quantity
          pnl := none
          strategy_name := bt.strategy_mode.debugFmt }
      { bt with
          trades := bt.trades ++ [closed_trade]
          current_position := hmInsert bt.current_position symbol (some new_trade) }
    else
      bt
  | _, _ => bt

/-- Source `Backtester::calculate_current_equity` (backtester.rs lines 436-451). -/
def Backtester.calculate_current_equity (bt : Backtester) (current_price : ℚ) : ℚ :=
  bt.current_position.foldl
    (fun current_equity p =>
      match p.2 with
      | some trade =>
        current_equity +
          (match trade.position_type with
           | .Long => (current_price - trade.entry_price) * trade.quantity
           | .Short => (trade.entry_price - current_price) * trade.quantity)
      | none => current_equity)
    bt.initial_capital

/-- The trade-execution phase of one loop iteration of `run_backtest`
(backtester.rs lines 250-254): run `execute_trade` when a signal was
resolved, otherwise leave the engine unchanged. -/
def Backtester.execPhase (bt : Backtester) (market_data : ProcessedMarketData)
    (rsi_signal : RsiSignal) (bollinger_signal : BollingerSignal) : Backtester :=
  match Backtester.resolveSignal bt.strategy_mode rsi_signal bollinger_signal with
  | some signal => bt.execute_trade market_data signal
  | none => bt

/-- One iteration of the tick loop of `run_backtest` (backtester.rs lines
209-264): resolve the decision, run `execute_trade` when a signal was
produced, then append the `EquityPoint` for the tick. -/
def Backtester.processTick (bt : Backtester) (market_data : ProcessedMarketData)
    (rsi_signal : RsiSignal) (bollinger_signal : BollingerSignal) : Backtester :=
  let bt1 := bt.execPhase market_data rsi_signal bollinger_signal
  let current_equity := bt1.calculate_current_equity market_data.raw_data.price
  let drawdown := (bt1.initial_capital - current_equity) / bt1.initial_capital
  { bt1 with
      equity_curve :=
        bt1.equity_curve ++
          [{ timestamp := market_data.raw_data.timestamp
             equity := current_equity
             drawdown := drawdown }] }

/-- The `EquityPoint` appended for one tick (backtester.rs lines 256-263). -/
def Backtester.tickPoint (bt : Backtester) (market_data : ProcessedMarketData)
    (rsi_signal : RsiSignal) (bollinger_signal : BollingerSignal) : EquityPoint :=
  let bt1 := bt.execPhase market_data rsi_signal bollinger_signal
  let current_equity := bt1.calculate_current_equity market_data.raw_data.price
  { timestamp := market_data.raw_data.timestamp
    equity := current_equity
    drawdown := (bt1.initial_capital - current_equity) / bt1.initial_capital }

/-- The tick loop of `run_backtest`, folded over the input sequence paired
with the two producers' per-tick signals. -/
def Backtester.runLoop (bt : Backtester)
    (ticks : List (ProcessedMarketData × RsiSignal × BollingerSignal)) : Backtester :=
  ticks.foldl (fun b t => b.processTick t.1 t.2.1 t.2.2) bt

/-- The trade-statistics accumulator of `calculate_results` (backtester.rs
lines 458-480). -/
structure TradeStats where
  winning_trades : Nat
  losing_trades : Nat
  total_pnl : ℚ
  win_amount : ℚ
  loss_amount : ℚ
  largest_win : ℚ
  largest_loss : ℚ
deriving DecidableEq, Repr

/-- One step of the statistics loop of `calculate_results`: a trade with a
recorded `pnl` is classified as winning when `pnl > 0`, losing otherwise. -/
def statsStep (acc : TradeStats) (trade : Trade) : TradeStats :=
  match trade.pnl with
  | some pnl =>
    if 0 < pnl then
      { acc with
          winning_trades := acc.winning_trades + 1
          total_pnl := acc.total_pnl + pnl
          win_amount := acc.win_amount + pnl
          largest_win := max acc.largest_win pnl }
    else
      { acc with
          losing_trades := acc.losing_trades + 1
          total_pnl := acc.total_pnl + pnl
          loss_amount := acc.loss_amount + pnl
          largest_loss := min acc.largest_loss pnl }
  | none => acc

/-- Source `Backtester::calculate_results` (backtester.rs lines 457-562).
`windows(2)` over a list of fewer than two points yields nothing, which is
exactly `zipWith` against the tail. -/
def Backtester.calculate_results (bt : Backtester) (sqrtFn : ℚ → ℚ) : BacktestResult :=
  let stats := bt.trades.foldl statsStep
    { winning_trades := 0, losing_trades := 0, total_pnl := 0, win_amount := 0
      loss_amount := 0, largest_win := 0, largest_loss := 0 }
  let total_trades := bt.trades.length
  let win_rate : ℚ :=
    if 0 < total_trades then (stats.winning_trades : ℚ) / (total_trades : ℚ) else 0
  let average_win : ℚ :=
    if 0 < stats.winning_trades then stats.win_amount / (stats.winning_trades : ℚ) else 0
  let average_loss : ℚ :=
    if 0 < stats.losing_trades then stats.loss_amount / (stats.losing_trades : ℚ) else 0
  let dd := bt.equity_curve.foldl
    (fun (acc : ℚ × ℚ) point =>
      let peak := if point.equity > acc.2 then point.equity else acc.2
      (max acc.1 ((peak - point.equity) / peak), peak))
    (0, bt.initial_capital)
  let returns := List.zipWith
    (fun prev current => (current.equity - prev.equity) / prev.equity)
    bt.equity_curve bt.equity_curve.tail
  let sharpeVal : ℚ :=
    if returns.isEmpty then 0
    else
      let avg_return := returns.sum / (returns.length : ℚ)
      let variance :=
        (returns.map (fun r => (r - avg_return) ^ 2)).sum / (returns.length : ℚ)
      let std_dev := sqrtFn variance
      let annualized_return := avg_return * 252
      let annualized_std_dev := std_dev * sqrtFn 252
      let risk_free_rate : ℚ := 2 / 100
      if 0 < annualized_std_dev then
        (annualized_return - risk_free_rate) / annualized_std_dev
      else 0
  { total_trades := total_trades
    winning_trades := stats.winning_trades
    losing_trades := stats.losing_trades
    total_pnl := stats.total_pnl
    win_rate := win_rate
    average_win := average_win
    average_loss := average_loss
    largest_win := stats.largest_win
    largest_loss := stats.largest_loss
    max_drawdown := dd.1
    sharpe := sharpeVal
    trades := bt.trades }

/-- Source `Backtester::run_backtest` (backtester.rs lines 186-267): reset the
per-run state (the seed `EquityPoint` reads the wall clock `now`), loop over
the ticks, and assemble the result.  The producers are constructed afresh in
the source and are external to this core, so their per-tick outputs travel
with each tick. -/
def Backtester.run_backtest (bt : Backtester) (now : Int) (sqrtFn : ℚ → ℚ)
    (ticks : List (ProcessedMarketData × RsiSignal × BollingerSignal)) :
    Backtester × BacktestResult :=
  let bt1 : Backtester :=
    { bt with
        trades := []
        current_position := []
        equity_curve :=
          [{ timestamp := now, equity := bt.initial_capital, drawdown := 0 }] }
  let bt2 := bt1.runLoop ticks
  (bt2, bt2.calculate_results sqrtFn)

/-- One exponential-smoothing update `avg = sample*α + avg*(1-α)`
(processing.rs lines 165-166). -/
def emaStep (alpha avg sample : ℚ) : ℚ :=
  sample * alpha + avg * (1 - alpha)

/-- The gain/loss smoothing and final quotient of `calculate_rsi`
(processing.rs lines 141-174), shared by the source translation and the
specification mirrors, which differ only in the order of `changes`. -/
def rsiFromChanges (changes : List ℚ) (period : Nat) : Option ℚ :=
  let gains := changes.map (fun change => if 0 < change then change else 0)
  let losses := changes.map (fun change => if 0 < change then 0 else -change)
  let alpha : ℚ := 2 / ((period : ℚ) + 1)
  match gains, losses with
  | g0 :: grest, l0 :: lrest =>
    let avg_gain := grest.foldl (fun avg sample => emaStep alpha avg sample) g0
    let avg_loss := lrest.foldl (fun avg sample => emaStep alpha avg sample) l0
    if avg_loss = 0 then some 100
    else
      let rs := avg_gain / avg_loss
      some (100 - 100 / (1 + rs))
  | _, _ => none

/-- Source `DataProcessor::calculate_rsi` (processing.rs lines 136-175) as a function
of the held price history (front of the list = oldest price, matching
`VecDeque::push_back`).  The loop index `i ∈ 1..=period` becomes `j = i - 1`;
the change at `j` is `history[len-1-j] - history[len-2-j]`, so the change
series runs from the most recent change to the oldest.  (For `period = 0` the
source would panic on `gains[0]`; the model returns `none` there.) -/
def calculate_rsi (price_history : List ℚ) (period : Nat) : Option ℚ :=
  if price_history.length < period + 1 then none
  else
    let n := price_history.length
    let changes := (List.range period).map
      (fun j => price_history.getD (n - (j + 1)) 0 - price_history.getD (n - (j + 1) - 1) 0)
    rsiFromChanges changes period

/-- The most recent `period + 1` prices, oldest first. -/
def rsiWindow (price_history : List ℚ) (period : Nat) : List ℚ :=
  price_history.drop (price_history.length - (period + 1))

/-- Consecutive differences `current - previous`, ordered oldest to newest. -/
def adjChanges (window : List ℚ) : List ℚ :=
  List.zipWith (fun prev current => current - prev) window window.tail

/-- The claimed RSI algorithm, written from the specification's words: the
most recent `period` consecutive price changes ordered from oldest to newest,
gains/losses split, the running average seeded with the first (oldest) value
and exponentially updated for each subsequent sample. -/
def rsiSpecClaim (price_history : List ℚ) (period : Nat) : Option ℚ :=
  if price_history.length < period + 1 then none
  else rsiFromChanges (adjChanges (rsiWindow price_history period)) period

/-- The amended RSI description: identical to `rsiSpecClaim` except that the
changes are ordered from newest to oldest, so the running averages are seeded
with the most recent change and updated toward progressively older samples. -/
def rsiSpecAmended (price_history : List ℚ) (period : Nat) : Option ℚ :=
  if price_history.length < period + 1 then none
  else rsiFromChanges (adjChanges (rsiWindow price_history period)).reverse period

/-! ### Specification-mirror definitions

These are written from the specification's words and compared against the
source translation above. -/

/-- The period-over-period simple returns of an equity series (spec §4.4):
`(equity[i] - equity[i-1]) / equity[i-1]` for every consecutive pair. -/
def returnsOf (equities : List ℚ) : List ℚ :=
  List.zipWith (fun prev current => (current - prev) / prev) equities equities.tail

/-- Claim-mirror of the summary drawdown (spec §4.4): a running peak starts at
`initial_capital` and is updated whenever equity exceeds it; the drawdown at
each curve point is `(peak - equity)/peak`; the result is the maximum such
value over the whole curve. -/
def maxDrawdownSpec (initial_capital : ℚ) (equities : List ℚ) : ℚ :=
  (equities.foldl
    (fun acc equity =>
      let peak := max acc.2 equity
      (max acc.1 ((peak - equity) / peak), peak))
    ((0 : ℚ), initial_capital)).1

/-- Claim-mirror of the Sharpe ratio (spec §4.4): mean and population
standard deviation (divide by `n`) of the period-over-period returns,
annualized with 252 periods/year, risk-free rate 0.02; exactly 0 when there
are no returns or the annualized standard deviation is 0. -/
def sharpeSpec (sqrtFn : ℚ → ℚ) (equities : List ℚ) : ℚ :=
  let returns := returnsOf equities
  if returns = [] then 0
  else
    let mean := returns.sum / (returns.length : ℚ)
    let variance := (returns.map (fun r => (r - mean) ^ 2)).sum / (returns.length : ℚ)
    let annualized_mean := mean * 252
    let annualized_std := sqrtFn variance * sqrtFn 252
    if annualized_std = 0 then 0 else (annualized_mean - 2 / 100) / annualized_std

/-- A trade counted as winning: recorded `pnl` strictly positive. -/
def isWinner (t : Trade) : Bool :=
  match t.pnl with
  | some pnl => decide (0 < pnl)
  | none => false

/-- A trade counted as losing: recorded `pnl` non-positive (the boundary
`pnl = 0` is losing). -/
def isLoser (t : Trade) : Bool :=
  match t.pnl with
  | some pnl => decide (pnl ≤ 0)
  | none => false

/-- A fully closed trade: exit time, exit price and realized PnL recorded. -/
def TradeClosed (t : Trade) : Prop :=
  t.exit_time.isSome ∧ t.exit_price.isSome ∧ t.pnl.isSome

/-- Invariant of the position ledger maintained by the run loop: every trade
in the history is closed, and every open position has no exit recorded. -/
def LedgerInv (bt : Backtester) : Prop :=
  (∀ t ∈ bt.trades, TradeClosed t) ∧
  (∀ p ∈ bt.current_position, ∀ t, p.2 = some t → t.exit_time = none ∧ t.pnl = none)

/-! ### Helper lemmas -/

theorem lookup_hmInsert (m : List (String × Option Trade)) (k : String) (v : Option Trade) :
    List.lookup k (hmInsert m k v) = some v := by
  simp [hmInsert, List.lookup]

theorem mem_hmInsert {m : List (String × Option Trade)} {k : String} {v : Option Trade}
    {p : String × Option Trade} (h : p ∈ hmInsert m k v) : p = (k, v) ∨ p ∈ m := by
  rcases List.mem_cons.mp h with h' | h'
  · exact Or.inl h'
  · exact Or.inr (List.mem_filter.mp h').1

theorem execute_trade_equity_curve (bt : Backtester) (md : ProcessedMarketData)
    (s : TradeSignal) : (bt.execute_trade md s).equity_curve = bt.equity_curve := by
  unfold Backtester.execute_trade
  dsimp only
  split <;> first | rfl | (split <;> rfl)

theorem execute_trade_initial_capital (bt : Backtester) (md : ProcessedMarketData)
    (s : TradeSignal) : (bt.execute_trade md s).initial_capital = bt.initial_capital := by
  unfold Backtester.execute_trade
  dsimp only
  split <;> first | rfl | (split <;> rfl)

theorem execute_trade_config (bt : Backtester) (md : ProcessedMarketData)
    (s : TradeSignal) :
    (bt.execute_trade md s).position_size = bt.position_size ∧
    (bt.execute_trade md s).commission_rate = bt.commission_rate ∧
    (bt.execute_trade md s).strategy_mode = bt.strategy_mode := by
  unfold Backtester.execute_trade
  dsimp only
  split <;> first | exact ⟨rfl, rfl, rfl⟩ | (split <;> exact ⟨rfl, rfl, rfl⟩)

theorem execute_trade_curveIndep (bt : Backtester) (c : List EquityPoint)
    (md : ProcessedMarketData) (s : TradeSignal) :
    ({ bt with equity_curve := c } : Backtester).execute_trade md s
      = { bt.execute_trade md s with equity_curve := c } := by
  unfold Backtester.execute_trade
  dsimp only
  split <;> first | rfl | (split <;> rfl)

theorem execPhase_equity_curve (bt : Backtester) (md : ProcessedMarketData)
    (r : RsiSignal) (b : BollingerSignal) :
    (bt.execPhase md r b).equity_curve = bt.equity_curve := by
  unfold Backtester.execPhase
  cases Backtester.resolveSignal bt.strategy_mode r b with
  | none => rfl
  | some s => exact execute_trade_equity_curve bt md s

theorem execPhase_initial_capital (bt : Backtester) (md : ProcessedMarketData)
    (r : RsiSignal) (b : BollingerSignal) :
    (bt.execPhase md r b).initial_capital = bt.initial_capital := by
  unfold Backtester.execPhase
  cases Backtester.resolveSignal bt.strategy_mode r b with
  | none => rfl
  | some s => exact execute_trade_initial_capital bt md s

theorem execPhase_curveIndep (bt : Backtester) (c : List EquityPoint)
    (md : ProcessedMarketData) (r : RsiSignal) (b : BollingerSignal) :
    ({ bt with equity_curve := c } : Backtester).execPhase md r b
      = { bt.execPhase md r b with equity_curve := c } := by
  unfold Backtester.execPhase
  dsimp only
  cases Backtester.resolveSignal bt.strategy_mode r b with
  | none => rfl
  | some s => exact execute_trade_curveIndep bt c md s

theorem processTick_curve (bt : Backtester) (c : List EquityPoint)
    (md : ProcessedMarketData) (r : RsiSignal) (b : BollingerSignal) :
    ({ bt with equity_curve := c } : Backtester).processTick md r b
      = { bt.execPhase md r b with equity_curve := c ++ [bt.tickPoint md r b] } := by
  unfold Backtester.processTick
  rw [execPhase_curveIndep]
  rfl

theorem processTick_eq (bt : Backtester) (md : ProcessedMarketData)
    (r : RsiSignal) (b : BollingerSignal) :
    bt.processTick md r b
      = { bt.execPhase md r b with
          equity_curve := bt.equity_curve ++ [bt.tickPoint md r b] } := by
  have h := processTick_curve bt bt.equity_curve md r b
  exact h

theorem runLoop_curve_shift (ticks : List (ProcessedMarketData × RsiSignal × BollingerSignal))
    (bt : Backtester) (c : List EquityPoint) :
    ({ bt with equity_curve := c } : Backtester).runLoop ticks
      = { ({ bt with equity_curve := [] } : Backtester).runLoop ticks with
          equity_curve :=
            c ++ (({ bt with equity_curve := [] } : Backtester).runLoop ticks).equity_curve } := by
  induction ticks generalizing bt c with
  | nil => simp [Backtester.runLoop]
  | cons t ts ih =>
    show Backtester.runLoop (({ bt with equity_curve := c } : Backtester).processTick t.1 t.2.1 t.2.2) ts = _
    rw [processTick_curve]
    have hbase :
        Backtester.runLoop (({ bt with equity_curve := [] } : Backtester).processTick t.1 t.2.1 t.2.2) ts
          = Backtester.runLoop
              ({ bt.execPhase t.1 t.2.1 t.2.2 with
                  equity_curve := [bt.tickPoint t.1 t.2.1 t.2.2] } : Backtester) ts := by
      rw [processTick_curve]
      rfl
    have h1 := ih (bt.execPhase t.1 t.2.1 t.2.2) (c ++ [bt.tickPoint t.1 t.2.1 t.2.2])
    have h2 := ih (bt.execPhase t.1 t.2.1 t.2.2) [bt.tickPoint t.1 t.2.1 t.2.2]
    show Backtester.runLoop _ ts
        = { Backtester.runLoop (({ bt with equity_curve := [] } : Backtester).processTick t.1 t.2.1 t.2.2) ts with
            equity_curve :=
              c ++ (Backtester.runLoop (({ bt with equity_curve := [] } : Backtester).processTick t.1 t.2.1 t.2.2) ts).equity_curve }
    rw [hbase, h1, h2]
    simp

/-- Source `calculate_results` reads the engine state only through the initial
capital, the trade history and the equities of the curve. -/
def calcResultsView (initial_capital : ℚ) (trades : List Trade) (equities : List ℚ)
    (sqrtFn : ℚ → ℚ) : BacktestResult :=
  let stats := trades.foldl statsStep
    { winning_trades := 0, losing_trades := 0, total_pnl := 0, win_amount := 0
      loss_amount := 0, largest_win := 0, largest_loss := 0 }
  let total_trades := trades.length
  let win_rate : ℚ :=
    if 0 < total_trades then (stats.winning_trades : ℚ) / (total_trades : ℚ) else 0
  let average_win : ℚ :=
    if 0 < stats.winning_trades then stats.win_amount / (stats.winning_trades : ℚ) else 0
  let average_loss : ℚ :=
    if 0 < stats.losing_trades then stats.loss_amount / (stats.losing_trades : ℚ) else 0
  let dd := equities.foldl
    (fun (acc : ℚ × ℚ) equity =>
      let peak := if equity > acc.2 then equity else acc.2
      (max acc.1 ((peak - equity) / peak), peak))
    (0, initial_capital)
  let returns := List.zipWith (fun prev current => (current - prev) / prev) equities equities.tail
  let sharpeVal : ℚ :=
    if returns.isEmpty then 0
    else
      let avg_return := returns.sum / (returns.length : ℚ)
      let variance :=
        (returns.map (fun r => (r - avg_return) ^ 2)).sum / (returns.length : ℚ)
      let std_dev := sqrtFn variance
      let annualized_return := avg_return * 252
      let annualized_std_dev := std_dev * sqrtFn 252
      let risk_free_rate : ℚ := 2 / 100
      if 0 < annualized_std_dev then
        (annualized_return - risk_free_rate) / annualized_std_dev
      else 0
  { total_trades := total_trades
    winning_trades := stats.winning_trades
    losing_trades := stats.losing_trades
    total_pnl := stats.total_pnl
    win_rate := win_rate
    average_win := average_win
    average_loss := average_loss
    largest_win := stats.largest_win
    largest_loss := stats.largest_loss
    max_drawdown := dd.1
    sharpe := sharpeVal
    trades := trades }

theorem calculate_results_view (bt : Backtester) (sqrtFn : ℚ → ℚ) :
    bt.calculate_results sqrtFn
      = calcResultsView bt.initial_capital bt.trades
          (bt.equity_curve.map EquityPoint.equity) sqrtFn := by
  unfold Backtester.calculate_results calcResultsView
  rw [List.foldl_map, ← List.map_tail, List.zipWith_map]

theorem ite_gt_eq_max (p e : ℚ) : (if e > p then e else p) = max p e := by
  rcases le_or_lt e p with h | h
  · rw [if_neg (not_lt.mpr h), max_eq_left h]
  · rw [if_pos h, max_eq_right h.le]

theorem view_max_drawdown (ic : ℚ) (tr : List Trade) (eqs : List ℚ) (sq : ℚ → ℚ) :
    (calcResultsView ic tr eqs sq).max_drawdown = maxDrawdownSpec ic eqs := by
  unfold calcResultsView maxDrawdownSpec
  dsimp only
  have hfun :
      (fun (acc : ℚ × ℚ) equity =>
        let peak := if equity > acc.2 then equity else acc.2
        (max acc.1 ((peak - equity) / peak), peak))
      = (fun (acc : ℚ × ℚ) equity =>
        let peak := max acc.2 equity
        (max acc.1 ((peak - equity) / peak), peak)) := by
    funext acc equity
    dsimp only
    rw [ite_gt_eq_max]
  rw [hfun]

theorem view_sharpe (ic : ℚ) (tr : List Trade) (eqs : List ℚ) (sq : ℚ → ℚ)
    (hs : ∀ q, 0 ≤ q → 0 ≤ sq q) :
    (calcResultsView ic tr eqs sq).sharpe = sharpeSpec sq eqs := by
  unfold calcResultsView sharpeSpec returnsOf
  dsimp only
  by_cases hret :
      List.zipWith (fun prev current => (current - prev) / prev) eqs eqs.tail = []
  · simp [hret]
  · rw [if_neg (by simpa [List.isEmpty_iff] using hret), if_neg hret]
    set returns := List.zipWith (fun prev current => (current - prev) / prev) eqs eqs.tail
    have hvar :
        0 ≤ (returns.map (fun r => (r - returns.sum / (returns.length : ℚ)) ^ 2)).sum /
              (returns.length : ℚ) := by
      apply div_nonneg
      · apply List.sum_nonneg
        intro x hx
        obtain ⟨r, _, rfl⟩ := List.mem_map.mp hx
        positivity
      · positivity
    have hann :
        0 ≤ sq ((returns.map (fun r => (r - returns.sum / (returns.length : ℚ)) ^ 2)).sum /
              (returns.length : ℚ)) * sq 252 :=
      mul_nonneg (hs _ hvar) (hs 252 (by norm_num))
    rcases eq_or_lt_of_le hann with h0 | h0
    · rw [if_neg (by rw [← h0]; exact lt_irrefl 0), if_pos h0.symm]
    · rw [if_pos h0, if_neg h0.ne']

theorem processTick_initial_capital (bt : Backtester) (md : ProcessedMarketData)
    (r : RsiSignal) (b : BollingerSignal) :
    (bt.processTick md r b).initial_capital = bt.initial_capital := by
  rw [processTick_eq]
  exact execPhase_initial_capital bt md r b

theorem runLoop_initial_capital (ticks : List (ProcessedMarketData × RsiSignal × BollingerSignal))
    (bt : Backtester) : (bt.runLoop ticks).initial_capital = bt.initial_capital := by
  induction ticks generalizing bt with
  | nil => rfl
  | cons t ts ih =>
    show (Backtester.runLoop (bt.processTick t.1 t.2.1 t.2.2) ts).initial_capital = _
    rw [ih, processTick_initial_capital]

theorem runLoop_curve_points (ticks : List (ProcessedMarketData × RsiSignal × BollingerSignal))
    (bt : Backtester) :
    ∀ pt ∈ (bt.runLoop ticks).equity_curve, pt ∈ bt.equity_curve ∨
      pt.drawdown = (bt.initial_capital - pt.equity) / bt.initial_capital := by
  induction ticks generalizing bt with
  | nil => exact fun pt hpt => Or.inl hpt
  | cons t ts ih =>
    intro pt hpt
    have h := ih (bt.processTick t.1 t.2.1 t.2.2) pt hpt
    rcases h with h | h
    · rw [processTick_eq] at h
      rcases List.mem_append.mp h with h1 | h1
      · exact Or.inl h1
      · rcases List.mem_singleton.mp h1 with rfl
        right
        unfold Backtester.tickPoint
        dsimp only
        rw [execPhase_initial_capital]
    · right
      rw [processTick_initial_capital] at h
      exact h

/-! ### C1: determinism of `run_backtest` -/

/-- C1: two invocations of `run_backtest` on engines with identical
configuration (`initial_capital`, `position_size`, `commission_rate`,
`strategy_mode`), identical square-root function, and an identical input
sequence (ticks of a single instrument paired with the producers' signals)
yield identical `BacktestResult` values, whatever the wall-clock reading
(`now`) of either run and whatever residual state either engine carried in
from earlier runs. -/
theorem run_backtest_deterministic (bt1 bt2 : Backtester) (now1 now2 : Int)
    (sqrtFn : ℚ → ℚ) (ticks : List (ProcessedMarketData × RsiSignal × BollingerSignal))
    (hic : bt1.initial_capital = bt2.initial_capital)
    (hps : bt1.position_size = bt2.position_size)
    (hcr : bt1.commission_rate = bt2.commission_rate)
    (hsm : bt1.strategy_mode = bt2.strategy_mode) :
    (bt1.run_backtest now1 sqrtFn ticks).2 = (bt2.run_backtest now2 sqrtFn ticks).2 := by
  obtain ⟨ic1, ps1, cr1, sm1, tr1, cp1, ec1⟩ := bt1
  obtain ⟨ic2, ps2, cr2, sm2, tr2, cp2, ec2⟩ := bt2
  dsimp only at hic hps hcr hsm
  subst hic
  subst hps
  subst hcr
  subst hsm
  show (Backtester.runLoop
      ({ (⟨ic1, ps1, cr1, sm1, [], [], []⟩ : Backtester) with
          equity_curve := [{ timestamp := now1, equity := ic1, drawdown := 0 }] }) ticks).calculate_results sqrtFn
    = (Backtester.runLoop
      ({ (⟨ic1, ps1, cr1, sm1, [], [], []⟩ : Backtester) with
          equity_curve := [{ timestamp := now2, equity := ic1, drawdown := 0 }] }) ticks).calculate_results sqrtFn
  rw [runLoop_curve_shift ticks ⟨ic1, ps1, cr1, sm1, [], [], []⟩
        [{ timestamp := now1, equity := ic1, drawdown := 0 }],
      runLoop_curve_shift ticks ⟨ic1, ps1, cr1, sm1, [], [], []⟩
        [{ timestamp := now2, equity := ic1, drawdown := 0 }]]
  rw [calculate_results_view, calculate_results_view]
  simp

/-- Witness for `run_backtest_deterministic`: same configuration, different
wall-clock seeds and different stale state, equal results. -/
theorem run_backtest_deterministic_witness :
    ((Backtester.new 10000 1000 (1/1000) 3).run_backtest 11 (fun _ => 0) []).2
      = ((Backtester.new 10000 1000 (1/1000) 4).run_backtest 12 (fun _ => 0) []).2 :=
  run_backtest_deterministic (Backtester.new 10000 1000 (1/1000) 3)
    (Backtester.new 10000 1000 (1/1000) 4) 11 12 (fun _ => 0) [] rfl rfl rfl rfl

/-! ### C2: construction-time validation -/

/-- C2 (counterexample): `Backtester::new` with a negative initial capital, a
negative position size and a negative commission rate does not fail: it
returns an engine holding exactly those parameters, on which `run_backtest`
completes normally. -/
theorem new_invalid_params_usable_cx :
    (Backtester.new (-1) (-1) (-1) 0).initial_capital = -1 ∧
    (Backtester.new (-1) (-1) (-1) 0).position_size = -1 ∧
    (Backtester.new (-1) (-1) (-1) 0).commission_rate = -1 ∧
    ((Backtester.new (-1) (-1) (-1) 0).run_backtest 0 (fun _ => 0) []).2
      = { total_trades := 0, winning_trades := 0, losing_trades := 0, total_pnl := 0
          win_rate := 0, average_win := 0, average_loss := 0, largest_win := 0
          largest_loss := 0, max_drawdown := 0, sharpe := 0, trades := [] } := by
  refine ⟨rfl, rfl, rfl, ?_⟩
  simp [Backtester.run_backtest, Backtester.runLoop, Backtester.calculate_results,
    Backtester.new, lt_irrefl]

/-- C2 (amended): `Backtester::new` performs no validation at all.  For every
parameter combination — in particular non-positive `initial_capital`,
non-positive `position_size`, or negative `commission_rate` — it returns a
usable engine instance storing exactly the given parameters, and a run on
that engine starts and completes (here: the run over the empty input
produces the well-formed empty result). -/
theorem new_invalid_params_usable (ic ps cr : ℚ) (now now2 : Int) (sqrtFn : ℚ → ℚ)
    (h : ic ≤ 0 ∨ ps ≤ 0 ∨ cr < 0) :
    (Backtester.new ic ps cr now).initial_capital = ic ∧
    (Backtester.new ic ps cr now).position_size = ps ∧
    (Backtester.new ic ps cr now).commission_rate = cr ∧
    (Backtester.new ic ps cr now).strategy_mode = .Combined ∧
    ((Backtester.new ic ps cr now).run_backtest now2 sqrtFn []).2
      = { total_trades := 0, winning_trades := 0, losing_trades := 0, total_pnl := 0
          win_rate := 0, average_win := 0, average_loss := 0, largest_win := 0
          largest_loss := 0, max_drawdown := 0, sharpe := 0, trades := [] } := by
  refine ⟨rfl, rfl, rfl, rfl, ?_⟩
  simp [Backtester.run_backtest, Backtester.runLoop, Backtester.calculate_results,
    Backtester.new, lt_irrefl]

/-- Witness for `new_invalid_params_usable` at `ic = -1`, `ps = 1`,
`cr = 0`. -/
theorem new_invalid_params_usable_witness :
    ((Backtester.new (-1) 1 0 3).run_backtest 5 (fun _ => 0) []).2
      = { total_trades := 0, winning_trades := 0, losing_trades := 0, total_pnl := 0
          win_rate := 0, average_win := 0, average_loss := 0, largest_win := 0
          largest_loss := 0, max_drawdown := 0, sharpe := 0, trades := [] } :=
  (new_invalid_params_usable (-1) 1 0 3 5 (fun _ => 0)
    (Or.inl (by norm_num))).2.2.2.2

/-! ### C4: Combined mode on strict disagreement -/

/-- C4: in Combined strategy mode, when the two producers strictly disagree
(RSI Buy vs Bollinger Sell, or RSI Sell vs Bollinger Buy), the tick's
decision step neither opens nor closes any position: the trade history and
the current-position map are unchanged by the tick. -/
theorem combined_disagree_no_trade (bt : Backtester) (md : ProcessedMarketData)
    (r : RsiSignal) (b : BollingerSignal) (hm : bt.strategy_mode = .Combined)
    (hd : (r.signal_type = .Buy ∧ b.signal_type = .Sell) ∨
          (r.signal_type = .Sell ∧ b.signal_type = .Buy)) :
    (bt.processTick md r b).trades = bt.trades ∧
    (bt.processTick md r b).current_position = bt.current_position := by
  obtain ⟨rt⟩ := r
  obtain ⟨bs⟩ := b
  rcases hd with ⟨h1, h2⟩ | ⟨h1, h2⟩ <;>
    subst h1 <;> subst h2 <;>
    simp [Backtester.processTick, Backtester.execPhase, Backtester.resolveSignal,
      Backtester.signals_agree, hm]

/-- Witness for `combined_disagree_no_trade`: a fresh Combined-mode engine on
a Buy/Sell conflict keeps its empty trade list and empty position map. -/
theorem combined_disagree_no_trade_witness :
    ((Backtester.new 10000 1000 (1/1000) 0).processTick
        { raw_data := { timestamp := 1, symbol := "SOL", price := 100, volume := 1,
                        high := 100, low := 100 }
          moving_average_5 := none, moving_average_20 := none, rsi_14 := none
          volatility := none, is_outlier := false }
        ⟨.Buy⟩ ⟨.Sell⟩).trades = (Backtester.new 10000 1000 (1/1000) 0).trades :=
  (combined_disagree_no_trade (Backtester.new 10000 1000 (1/1000) 0) _ ⟨.Buy⟩ ⟨.Sell⟩
    rfl (Or.inl ⟨rfl, rfl⟩)).1

/-! ### C5: Combined-mode tie-break -/

/-- C5: whenever the Combined arm produces a trade decision, the decision is
producer B's (Bollinger) signal whenever B's signal is not Hold, and it is
producer A's (RSI) signal exactly when B's signal is Hold; in particular when
both producers emit non-Hold signals and a decision is made, it comes from
producer B. -/
theorem combined_tiebreak_prefers_bollinger (r : RsiSignal) (b : BollingerSignal)
    (s : TradeSignal) (h : Backtester.resolveSignal .Combined r b = some s) :
    (b.signal_type ≠ .Hold → s = Backtester.convert_bollinger_to_trade_signal b) ∧
    (b.signal_type = .Hold → s = Backtester.convert_rsi_to_trade_signal r) := by
  obtain ⟨rt⟩ := r
  obtain ⟨bs⟩ := b
  cases rt <;> cases bs <;>
    simp_all [Backtester.resolveSignal, Backtester.signals_agree,
      Backtester.convert_bollinger_to_trade_signal, Backtester.convert_rsi_to_trade_signal]

/-- Witness for `combined_tiebreak_prefers_bollinger`: both producers say
Buy; the decision equals the Bollinger conversion. -/
theorem combined_tiebreak_prefers_bollinger_witness :
    TradeSignal.Buy = Backtester.convert_bollinger_to_trade_signal ⟨.Buy⟩ :=
  (combined_tiebreak_prefers_bollinger ⟨.Buy⟩ ⟨.Buy⟩ .Buy rfl).1 (by decide)

/-! ### C7: the two drawdown definitions -/

/-- C7: the per-tick drawdown stored in every `EquityPoint` appended after
the seed equals `(initial_capital - equity) / initial_capital`, measured
against the static initial capital, while `max_drawdown` in the result is
computed by the distinct running-peak definition `maxDrawdownSpec` (peak
starts at `initial_capital`, updates when equity exceeds it, drawdown
`(peak - equity)/peak`, maximum over the whole curve). -/
theorem drawdown_two_definitions (bt : Backtester) (now : Int) (sqrtFn : ℚ → ℚ)
    (ticks : List (ProcessedMarketData × RsiSignal × BollingerSignal)) :
    (∃ rest, ((bt.run_backtest now sqrtFn ticks).1).equity_curve
        = { timestamp := now, equity := bt.initial_capital, drawdown := 0 } :: rest ∧
      ∀ pt ∈ rest,
        pt.drawdown = (bt.initial_capital - pt.equity) / bt.initial_capital) ∧
    ((bt.run_backtest now sqrtFn ticks).2).max_drawdown
      = maxDrawdownSpec bt.initial_capital
          (((bt.run_backtest now sqrtFn ticks).1).equity_curve.map EquityPoint.equity) := by
  obtain ⟨ic, ps, cr, sm, tr, cp, ec⟩ := bt
  unfold Backtester.run_backtest
  dsimp only
  constructor
  · rw [runLoop_curve_shift ticks ⟨ic, ps, cr, sm, [], [], []⟩
        [{ timestamp := now, equity := ic, drawdown := 0 }]]
    refine ⟨(Backtester.runLoop (⟨ic, ps, cr, sm, [], [], []⟩ : Backtester) ticks).equity_curve,
      by simp, ?_⟩
    intro pt hpt
    rcases runLoop_curve_points ticks (⟨ic, ps, cr, sm, [], [], []⟩ : Backtester) pt hpt with
      h | h
    · exact absurd h (List.not_mem_nil pt)
    · exact h
  · rw [calculate_results_view, view_max_drawdown,
      runLoop_initial_capital ticks
        (⟨ic, ps, cr, sm, [], [], [{ timestamp := now, equity := ic, drawdown := 0 }]⟩ :
          Backtester)]

/-! ### C8: Sharpe ratio -/

/-- C8: the `sharpe_ratio` of the returned `BacktestResult` equals the
specification formula `sharpeSpec` applied to the run's equity curve
(including the seed point): period-over-period returns, mean and population
standard deviation (divide by `n`), annualization by 252, risk-free rate
0.02, and exactly 0 when there are no returns or the annualized standard
deviation is 0.  The square-root model is assumed to return nonnegative
values on nonnegative inputs, as `f64::sqrt` does. -/
theorem sharpe_matches_spec (bt : Backtester) (now : Int) (sqrtFn : ℚ → ℚ)
    (ticks : List (ProcessedMarketData × RsiSignal × BollingerSignal))
    (hs : ∀ q, 0 ≤ q → 0 ≤ sqrtFn q) :
    ((bt.run_backtest now sqrtFn ticks).2).sharpe
      = sharpeSpec sqrtFn
          (((bt.run_backtest now sqrtFn ticks).1).equity_curve.map EquityPoint.equity) := by
  unfold Backtester.run_backtest
  dsimp only
  rw [calculate_results_view, view_sharpe _ _ _ _ hs]

/-- Witness for `sharpe_matches_spec` at a concrete engine and the
everywhere-zero square-root model (which is nonnegative on nonnegatives). -/
theorem sharpe_matches_spec_witness :
    (((Backtester.new 10000 1000 (1/1000) 0).run_backtest 0 (fun _ => 0) []).2).sharpe
      = sharpeSpec (fun _ => 0)
          ((((Backtester.new 10000 1000 (1/1000) 0).run_backtest 0 (fun _ => 0) []).1).equity_curve.map
            EquityPoint.equity) :=
  sharpe_matches_spec (Backtester.new 10000 1000 (1/1000) 0) 0 (fun _ => 0) []
    (fun _ _ => le_refl 0)

/-! ### C6: closing a position -/

/-- C6: closing an open position at a tick charges commission
`position_size * commission_rate` (from the configured `position_size`, not
the live exit value), records realized PnL `(exit - entry)*quantity -
commission` for Long and `(entry - exit)*quantity - commission` for Short,
takes exit price and exit time from the closing tick, and atomically opens
the opposite-direction position at the same tick's price. -/
theorem execute_trade_close_semantics (bt : Backtester) (md : ProcessedMarketData)
    (trade : Trade)
    (h : List.lookup md.raw_data.symbol bt.current_position = some (some trade)) :
    (trade.position_type = .Long →
      (bt.execute_trade md .Sell).trades
          = bt.trades ++
            [{ trade with
                exit_time := some md.raw_data.timestamp
                exit_price := some md.raw_data.price
                pnl := some ((md.raw_data.price - trade.entry_price) * trade.quantity
                  - bt.position_size * bt.commission_rate) }] ∧
      List.lookup md.raw_data.symbol (bt.execute_trade md .Sell).current_position
          = some (some
            { entry_time := md.raw_data.timestamp
              exit_time := none
              entry_price := md.raw_data.price
              exit_price := none
              position_type := .Short
              quantity := bt.position_size / md.raw_data.price
              pnl := none
              strategy_name := bt.strategy_mode.debugFmt })) ∧
    (trade.position_type = .Short →
      (bt.execute_trade md .Buy).trades
          = bt.trades ++
            [{ trade with
                exit_time := some md.raw_data.timestamp
                exit_price := some md.raw_data.price
                pnl := some ((trade.entry_price - md.raw_data.price) * trade.quantity
                  - bt.position_size * bt.commission_rate) }] ∧
      List.lookup md.raw_data.symbol (bt.execute_trade md .Buy).current_position
          = some (some
            { entry_time := md.raw_data.timestamp
              exit_time := none
              entry_price := md.raw_data.price
              exit_price := none
              position_type := .Long
              quantity := bt.position_size / md.raw_data.price
              pnl := none
              strategy_name := bt.strategy_mode.debugFmt })) := by
  constructor
  · intro hpt
    unfold Backtester.execute_trade
    dsimp only
    rw [h]
    dsimp only
    rw [if_pos hpt]
    refine ⟨?_, lookup_hmInsert _ _ _⟩
    have hq : md.raw_data.price * trade.quantity - trade.entry_price * trade.quantity
        - bt.calculate_commission bt.position_size
        = (md.raw_data.price - trade.entry_price) * trade.quantity
          - bt.position_size * bt.commission_rate := by
      unfold Backtester.calculate_commission
      ring
    rw [hq]
  · intro hpt
    unfold Backtester.execute_trade
    dsimp only
    rw [h]
    dsimp only
    rw [if_pos hpt]
    refine ⟨?_, lookup_hmInsert _ _ _⟩
    have hq : trade.entry_price * trade.quantity - md.raw_data.price * trade.quantity
        - bt.calculate_commission bt.position_size
        = (trade.entry_price - md.raw_data.price) * trade.quantity
          - bt.position_size * bt.commission_rate := by
      unfold Backtester.calculate_commission
      ring
    rw [hq]

/-- Witness for `execute_trade_close_semantics`: a Long position of 10 units
entered at 100 closed by a Sell at 110 with `position_size = 1000`,
`commission_rate = 0.001`. -/
theorem execute_trade_close_semantics_witness :
    ((Backtester.mk 10000 1000 (1/1000) .Combined []
        [("SOL", some { entry_time := 1, exit_time := none, entry_price := 100
                        exit_price := none, position_type := .Long, quantity := 10
                        pnl := none, strategy_name := "Combined" })] []).execute_trade
        { raw_data := { timestamp := 2, symbol := "SOL", price := 110, volume := 1
                        high := 110, low := 110 }
          moving_average_5 := none, moving_average_20 := none, rsi_14 := none
          volatility := none, is_outlier := false } .Sell).trades
      = [{ entry_time := 1, exit_time := some 2, entry_price := 100, exit_price := some 110
           position_type := .Long, quantity := 10
           pnl := some ((110 - 100) * 10 - 1000 * (1/1000)), strategy_name := "Combined" }] := by
  have h := execute_trade_close_semantics
    (Backtester.mk 10000 1000 (1/1000) .Combined []
      [("SOL", some { entry_time := 1, exit_time := none, entry_price := 100
                      exit_price := none, position_type := .Long, quantity := 10
                      pnl := none, strategy_name := "Combined" })] [])
    { raw_data := { timestamp := 2, symbol := "SOL", price := 110, volume := 1
                    high := 110, low := 110 }
      moving_average_5 := none, moving_average_20 := none, rsi_14 := none
      volatility := none, is_outlier := false }
    { entry_time := 1, exit_time := none, entry_price := 100, exit_price := none
      position_type := .Long, quantity := 10, pnl := none, strategy_name := "Combined" }
    rfl
  exact (h.1 rfl).1

/-! ### Machinery for the trade statistics and the ledger invariant -/

theorem statsFold_winning (l : List Trade) (acc : TradeStats) :
    (l.foldl statsStep acc).winning_trades = acc.winning_trades + l.countP isWinner := by
  induction l generalizing acc with
  | nil => simp
  | cons t ts ih =>
    rw [List.foldl_cons, ih, List.countP_cons]
    cases hp : t.pnl with
    | none => simp [statsStep, isWinner, hp]
    | some p =>
      by_cases h0 : 0 < p
      · simp only [statsStep, isWinner, hp]
        rw [if_pos h0]
        simp [h0]
        omega
      · simp only [statsStep, isWinner, hp]
        rw [if_neg h0]
        simp [h0]

theorem statsFold_losing (l : List Trade) (acc : TradeStats) :
    (l.foldl statsStep acc).losing_trades = acc.losing_trades + l.countP isLoser := by
  induction l generalizing acc with
  | nil => simp
  | cons t ts ih =>
    rw [List.foldl_cons, ih, List.countP_cons]
    cases hp : t.pnl with
    | none => simp [statsStep, isLoser, hp]
    | some p =>
      by_cases h0 : 0 < p
      · simp only [statsStep, isLoser, hp]
        rw [if_pos h0]
        simp [not_le.mpr h0]
      · simp only [statsStep, isLoser, hp]
        rw [if_neg h0]
        simp [not_lt.mp h0]
        omega

theorem statsFold_total_pnl (l : List Trade) (acc : TradeStats) :
    (l.foldl statsStep acc).total_pnl = acc.total_pnl + (l.filterMap Trade.pnl).sum := by
  induction l generalizing acc with
  | nil => simp
  | cons t ts ih =>
    rw [List.foldl_cons, ih, List.filterMap_cons]
    cases hp : t.pnl with
    | none => simp [statsStep, hp]
    | some p =>
      by_cases h0 : 0 < p
      · simp only [statsStep, hp]
        rw [if_pos h0]
        simp
        ring
      · simp only [statsStep, hp]
        rw [if_neg h0]
        simp
        ring

theorem length_eq_countP_winner_loser (l : List Trade) (h : ∀ t ∈ l, t.pnl.isSome) :
    l.length = l.countP isWinner + l.countP isLoser := by
  induction l with
  | nil => simp
  | cons t ts ih =>
    have ht := h t (List.mem_cons_self t ts)
    have hts := ih (fun x hx => h x (List.mem_cons_of_mem t hx))
    cases hp : t.pnl with
    | none => rw [hp] at ht; simp at ht
    | some p =>
      by_cases h0 : 0 < p
      · simp [List.countP_cons, isWinner, isLoser, hp, h0, not_le.mpr h0, hts]
        omega
      · simp [List.countP_cons, isWinner, isLoser, hp, h0, not_lt.mp h0, hts]
        omega

theorem execute_trade_inv (bt : Backtester) (md : ProcessedMarketData) (s : TradeSignal)
    (h : LedgerInv bt) : LedgerInv (bt.execute_trade md s) := by
  obtain ⟨htr, hpos⟩ := h
  unfold Backtester.execute_trade
  dsimp only
  split
  · refine ⟨htr, ?_⟩
    intro p hp t hpt
    rcases mem_hmInsert hp with rfl | hin
    · obtain rfl : _ = t := Option.some.inj hpt
      exact ⟨rfl, rfl⟩
    · exact hpos p hin t hpt
  · refine ⟨htr, ?_⟩
    intro p hp t hpt
    rcases mem_hmInsert hp with rfl | hin
    · obtain rfl : _ = t := Option.some.inj hpt
      exact ⟨rfl, rfl⟩
    · exact hpos p hin t hpt
  · split
    · constructor
      · intro t hmem
        rcases List.mem_append.mp hmem with hold | hnew
        · exact htr t hold
        · rcases List.mem_singleton.mp hnew with rfl
          exact ⟨rfl, rfl, rfl⟩
      · intro p hp t hpt
        rcases mem_hmInsert hp with rfl | hin
        · obtain rfl : _ = t := Option.some.inj hpt
          exact ⟨rfl, rfl⟩
        · exact hpos p hin t hpt
    · exact ⟨htr, hpos⟩
  · split
    · constructor
      · intro t hmem
        rcases List.mem_append.mp hmem with hold | hnew
        · exact htr t hold
        · rcases List.mem_singleton.mp hnew with rfl
          exact ⟨rfl, rfl, rfl⟩
      · intro p hp t hpt
        rcases mem_hmInsert hp with rfl | hin
        · obtain rfl : _ = t := Option.some.inj hpt
          exact ⟨rfl, rfl⟩
        · exact hpos p hin t hpt
    · exact ⟨htr, hpos⟩
  · exact ⟨htr, hpos⟩

theorem processTick_inv (bt : Backtester) (md : ProcessedMarketData)
    (r : RsiSignal) (b : BollingerSignal) (h : LedgerInv bt) :
    LedgerInv (bt.processTick md r b) := by
  rw [processTick_eq]
  have h2 : LedgerInv (bt.execPhase md r b) := by
    unfold Backtester.execPhase
    cases Backtester.resolveSignal bt.strategy_mode r b with
    | none => exact h
    | some s => exact execute_trade_inv bt md s h
  exact h2

theorem runLoop_inv (ticks : List (ProcessedMarketData × RsiSignal × BollingerSignal))
    (bt : Backtester) (h : LedgerInv bt) : LedgerInv (bt.runLoop ticks) := by
  induction ticks generalizing bt with
  | nil => exact h
  | cons t ts ih =>
    exact ih (bt.processTick t.1 t.2.1 t.2.2) (processTick_inv bt t.1 t.2.1 t.2.2 h)

theorem calculate_results_trades (bt : Backtester) (sqrtFn : ℚ → ℚ) :
    (bt.calculate_results sqrtFn).trades = bt.trades := rfl

theorem calculate_results_total_trades (bt : Backtester) (sqrtFn : ℚ → ℚ) :
    (bt.calculate_results sqrtFn).total_trades = bt.trades.length := rfl

theorem calculate_results_winning (bt : Backtester) (sqrtFn : ℚ → ℚ) :
    (bt.calculate_results sqrtFn).winning_trades = bt.trades.countP isWinner := by
  have h := statsFold_winning bt.trades
    { winning_trades := 0, losing_trades := 0, total_pnl := 0, win_amount := 0
      loss_amount := 0, largest_win := 0, largest_loss := 0 }
  simpa using h

theorem calculate_results_losing (bt : Backtester) (sqrtFn : ℚ → ℚ) :
    (bt.calculate_results sqrtFn).losing_trades = bt.trades.countP isLoser := by
  have h := statsFold_losing bt.trades
    { winning_trades := 0, losing_trades := 0, total_pnl := 0, win_amount := 0
      loss_amount := 0, largest_win := 0, largest_loss := 0 }
  simpa using h

theorem calculate_results_total_pnl (bt : Backtester) (sqrtFn : ℚ → ℚ) :
    (bt.calculate_results sqrtFn).total_pnl = (bt.trades.filterMap Trade.pnl).sum := by
  have h := statsFold_total_pnl bt.trades
    { winning_trades := 0, losing_trades := 0, total_pnl := 0, win_amount := 0
      loss_amount := 0, largest_win := 0, largest_loss := 0 }
  simpa using h

theorem run_backtest_ledgerInv (bt : Backtester) (now : Int) (sqrtFn : ℚ → ℚ)
    (ticks : List (ProcessedMarketData × RsiSignal × BollingerSignal)) :
    LedgerInv ((bt.run_backtest now sqrtFn ticks).1) := by
  unfold Backtester.run_backtest
  dsimp only
  apply runLoop_inv
  constructor
  · intro t ht
    exact absurd ht (List.not_mem_nil t)
  · intro p hp
    exact absurd hp (List.not_mem_nil p)

/-! ### C9: winners/losers classification and counting -/

/-- C9: in every returned `BacktestResult`, a closed trade is counted as
winning exactly when its recorded `pnl` is strictly positive and as losing
exactly when its recorded `pnl` is non-positive (a PnL of exactly 0 is
losing), and `total_trades = winning_trades + losing_trades`. -/
theorem trade_counting (bt : Backtester) (now : Int) (sqrtFn : ℚ → ℚ)
    (ticks : List (ProcessedMarketData × RsiSignal × BollingerSignal)) :
    ((bt.run_backtest now sqrtFn ticks).2).winning_trades
        = ((bt.run_backtest now sqrtFn ticks).2).trades.countP isWinner ∧
    ((bt.run_backtest now sqrtFn ticks).2).losing_trades
        = ((bt.run_backtest now sqrtFn ticks).2).trades.countP isLoser ∧
    ((bt.run_backtest now sqrtFn ticks).2).total_trades
        = ((bt.run_backtest now sqrtFn ticks).2).winning_trades
          + ((bt.run_backtest now sqrtFn ticks).2).losing_trades := by
  have hinv := run_backtest_ledgerInv bt now sqrtFn ticks
  have hsome : ∀ t ∈ ((bt.run_backtest now sqrtFn ticks).1).trades, t.pnl.isSome :=
    fun t ht => (hinv.1 t ht).2.2
  refine ⟨?_, ?_, ?_⟩
  · rw [show (bt.run_backtest now sqrtFn ticks).2
        = ((bt.run_backtest now sqrtFn ticks).1).calculate_results sqrtFn from rfl,
      calculate_results_winning, calculate_results_trades]
  · rw [show (bt.run_backtest now sqrtFn ticks).2
        = ((bt.run_backtest now sqrtFn ticks).1).calculate_results sqrtFn from rfl,
      calculate_results_losing, calculate_results_trades]
  · rw [show (bt.run_backtest now sqrtFn ticks).2
        = ((bt.run_backtest now sqrtFn ticks).1).calculate_results sqrtFn from rfl,
      calculate_results_winning, calculate_results_losing, calculate_results_total_trades]
    exact length_eq_countP_winner_loser _ hsome

/-! ### C10: all returned trades are closed; open positions are dropped -/

/-- C10: every `Trade` in the trades list of a returned `BacktestResult` is
closed (`exit_time`, `exit_price` and `pnl` are all recorded), the result's
counts and PnL are computed from that list alone (`total_trades` is its
length and `total_pnl` the sum of its recorded PnLs), and a position still
open when the input ends is silently dropped: it is never force-closed nor
appended to the trade list. -/
theorem open_position_dropped (bt : Backtester) (now : Int) (sqrtFn : ℚ → ℚ)
    (ticks : List (ProcessedMarketData × RsiSignal × BollingerSignal)) :
    (∀ t ∈ ((bt.run_backtest now sqrtFn ticks).2).trades,
        t.exit_time.isSome ∧ t.exit_price.isSome ∧ t.pnl.isSome) ∧
    ((bt.run_backtest now sqrtFn ticks).2).trades
        = ((bt.run_backtest now sqrtFn ticks).1).trades ∧
    ((bt.run_backtest now sqrtFn ticks).2).total_trades
        = ((bt.run_backtest now sqrtFn ticks).2).trades.length ∧
    ((bt.run_backtest now sqrtFn ticks).2).total_pnl
        = (((bt.run_backtest now sqrtFn ticks).2).trades.filterMap Trade.pnl).sum ∧
    (∀ p ∈ ((bt.run_backtest now sqrtFn ticks).1).current_position, ∀ t, p.2 = some t →
        t ∉ ((bt.run_backtest now sqrtFn ticks).2).trades) := by
  have hinv := run_backtest_ledgerInv bt now sqrtFn ticks
  have h2 : (bt.run_backtest now sqrtFn ticks).2
      = ((bt.run_backtest now sqrtFn ticks).1).calculate_results sqrtFn := rfl
  refine ⟨?_, ?_, ?_, ?_, ?_⟩
  · intro t ht
    rw [h2, calculate_results_trades] at ht
    exact hinv.1 t ht
  · rw [h2, calculate_results_trades]
  · rw [h2, calculate_results_total_trades, calculate_results_trades]
  · rw [h2, calculate_results_total_pnl, calculate_results_trades]
  · intro p hp t hpt hmem
    have hopen := (hinv.2 p hp t hpt).1
    rw [h2, calculate_results_trades] at hmem
    have hclosed := (hinv.1 t hmem).1
    rw [hopen] at hclosed
    simp at hclosed

/-! ### C3: RSI smoothing order -/

theorem getElem_idx_congr {α : Type} (l : List α) {i j : Nat} (h : i = j)
    (hi : i < l.length) (hj : j < l.length) : l[i] = l[j] := by
  subst h
  rfl

/-- The change series built by the source loop (`i ∈ 1..=period`, newest pair
first) is the reverse of the oldest-to-newest consecutive differences of the
most recent `period + 1` prices. -/
theorem rsi_changes_reverse (ph : List ℚ) (period : Nat) (hlen : period + 1 ≤ ph.length) :
    (List.range period).map
      (fun j => ph.getD (ph.length - (j + 1)) 0 - ph.getD (ph.length - (j + 1) - 1) 0)
      = (adjChanges (rsiWindow ph period)).reverse := by
  have hw : (rsiWindow ph period).length = period + 1 := by
    unfold rsiWindow
    rw [List.length_drop]
    omega
  have hadj : (adjChanges (rsiWindow ph period)).length = period := by
    unfold adjChanges
    rw [List.length_zipWith, List.length_tail, hw]
    simp
  apply List.ext_getElem
  · simp [hadj]
  · intro i h1 h2
    have hi : i < period := by simpa using h1
    rw [List.getElem_map, List.getElem_range, List.getElem_reverse]
    rw [List.getD_eq_getElem ph 0 (by omega), List.getD_eq_getElem ph 0 (by omega)]
    unfold adjChanges
    rw [List.getElem_zipWith, List.getElem_tail]
    unfold rsiWindow
    rw [List.getElem_drop, List.getElem_drop]
    have e2 : ph.length - (i + 1) - 1
        = ph.length - (period + 1)
          + ((adjChanges (rsiWindow ph period)).length - 1 - i) := by
      rw [hadj]
      omega
    have e1 : ph.length - (i + 1)
        = ph.length - (period + 1)
          + ((adjChanges (rsiWindow ph period)).length - 1 - i + 1) := by
      rw [hadj]
      omega
    congr 1
    · exact getElem_idx_congr ph e1 (by omega) (by omega)
    · exact getElem_idx_congr ph e2 (by omega) (by omega)

/-- C3 (counterexample): on the price history `[0, 3, 2]` with `period = 2`
the source `calculate_rsi` yields `600/7` while the claimed oldest-to-newest
smoothing yields `60`: the claim's ordering is wrong for the code. -/
theorem calculate_rsi_order_cx : calculate_rsi [0, 3, 2] 2 ≠ rsiSpecClaim [0, 3, 2] 2 := by
  have h1 : calculate_rsi [0, 3, 2] 2 = some (600/7) := by
    norm_num [calculate_rsi, rsiFromChanges, emaStep, List.range_succ]
  have h2 : rsiSpecClaim [0, 3, 2] 2 = some 60 := by
    norm_num [rsiSpecClaim, rsiFromChanges, adjChanges, rsiWindow, emaStep]
  rw [h1, h2]
  intro h
  have := Option.some.inj h
  norm_num at this

/-- C3 (amended): `calculate_rsi` computes exactly the claimed algorithm
except that the `period` most recent consecutive changes are ordered from
newest to oldest: the running averages are seeded with the most recent
change's gain/loss and the exponential update `avg = sample*α + avg*(1-α)`,
`α = 2/(period+1)`, is applied for each progressively older sample; the
final quotient (and the `avg_loss = 0 ↦ 100` rule) and the
`None`-on-insufficient-history behaviour are as claimed. -/
theorem calculate_rsi_matches_amended_spec (ph : List ℚ) (period : Nat) :
    calculate_rsi ph period = rsiSpecAmended ph period := by
  unfold calculate_rsi rsiSpecAmended
  by_cases hlen : ph.length < period + 1
  · rw [if_pos hlen, if_pos hlen]
  · rw [if_neg hlen, if_neg hlen]
    dsimp only
    rw [rsi_changes_reverse ph period (by omega)]

end QuantSol
